import Mathlib

/-!
Verification of the uniform-grid flocking simulation kernel.

This file is a shallow embedding, in Lean 4, of the core device functions of
`src/kernel.cu` (CUDA flocking simulation: brute-force, scattered-grid and
coherent-grid neighbor evaluation), together with theorems settling the
specification claims about them.

Modelling conventions:
* `float` values are modelled as exact rationals (`ℚ`); `glm::vec3` becomes
  `ℚ × ℚ × ℚ` with componentwise arithmetic.  Float literals such as `0.1f`
  are taken at their decimal face value.
* `glm::length(v) < r` (both sides nonnegative) is embedded as the exact
  equivalent comparison of squares `normSq v < r * r`, avoiding square roots.
* The one square root the code needs (speed clamping) is passed in as an
  explicit function argument `sq`, constrained where theorems need it.
* device arrays are total functions from `ℤ` (indices as C `int`) to values;
  a CUDA kernel that runs one thread per index is embedded as the function
  computing each thread's written value, or, when threads write to
  data-dependent locations (`kernIdentifyCellStartEnd`), as a fold over the
  thread indices in order (the threads' write sets are disjoint for sorted
  input, so any order gives the parallel result).
-/

/-- Model of `glm::vec3` with exact-rational components `(x, y, z)`. -/
abbrev Vec3 : Type := ℚ × ℚ × ℚ

/-- Squared Euclidean norm; `glm::length v < r` is embedded as
`normSq v < r * r`. -/
def normSq (v : Vec3) : ℚ := v.1 * v.1 + v.2.1 * v.2.1 + v.2.2 * v.2.2

/-- The guard `glm::length (p - q) < r` from the rule kernels, as a `Bool`
(exact arithmetic: comparing squares is equivalent for nonnegative `r`). -/
def inDistB (p q : Vec3) (r : ℚ) : Bool := decide (normSq (p - q) < r * r)

/-- Constant `#define rule1Distance 20.0f`. -/
def rule1Distance : ℚ := 20
/-- Constant `#define rule2Distance 4.0f`. -/
def rule2Distance : ℚ := 4
/-- Constant `#define rule3Distance 10.0f`. -/
def rule3Distance : ℚ := 10
/-- Constant `#define rule1Scale 0.01f`. -/
def rule1Scale : ℚ := 1 / 100
/-- Constant `#define rule2Scale 0.1f`. -/
def rule2Scale : ℚ := 1 / 10
/-- Constant `#define rule3Scale 0.1f`. -/
def rule3Scale : ℚ := 1 / 10
/-- Constant `#define maxSpeed 1.0f`. -/
def maxSpeed : ℚ := 1
/-- Constant `#define scene_scale 100.0f`. -/
def scene_scale : ℚ := 100

/-- Value of `std::max({rule1Distance, rule2Distance, rule3Distance})` from
`Boids::initSimulation` (half of `gridCellWidth`): the largest rule radius. -/
def maxRuleDistance : ℚ := max rule1Distance (max rule2Distance rule3Distance)

/-- The integers `[a, b)` in increasing order: the index set of a C loop
`for (int i = a; i < b; ++i)`. -/
def intRange (a b : ℤ) : List ℤ :=
  (List.range (b - a).toNat).map (fun k : ℕ => a + (k : ℤ))

theorem mem_intRange {a b j : ℤ} : j ∈ intRange a b ↔ a ≤ j ∧ j < b := by
  unfold intRange
  simp only [List.mem_map, List.mem_range]
  constructor
  · rintro ⟨k, hk, hkj⟩
    omega
  · rintro ⟨h1, h2⟩
    refine ⟨(j - a).toNat, by omega, by omega⟩

theorem nodup_intRange (a b : ℤ) : (intRange a b).Nodup := by
  unfold intRange
  refine List.Nodup.map ?_ (List.nodup_range _)
  intro x y h
  have h2 : a + (x : ℤ) = a + (y : ℤ) := h
  omega

/-- Source `gridIndex3Dto1D` (kernel.cu:596): linearize a 3-D cell coordinate. -/
def gridIndex3Dto1D (x y z gridResolution : ℤ) : ℤ :=
  x + y * gridResolution + z * gridResolution * gridResolution

/-- Source `gridInRange` (kernel.cu:600): the source checks each component with
`>= 0` and `<= gridResolution` (note: `<=`, not `<`). -/
def gridInRange (val : ℤ × ℤ × ℤ) (gridResolution : ℤ) : Prop :=
  0 ≤ val.1 ∧ val.1 ≤ gridResolution ∧
  0 ≤ val.2.1 ∧ val.2.1 ≤ gridResolution ∧
  0 ≤ val.2.2 ∧ val.2.2 ≤ gridResolution

instance (val : ℤ × ℤ × ℤ) (g : ℤ) : Decidable (gridInRange val g) := by
  unfold gridInRange; infer_instance

/-- The C cast `(int) f` of a (here: exactly represented) float: truncation
toward zero. -/
def ratTrunc (q : ℚ) : ℤ := if 0 ≤ q then ⌊q⌋ else -⌊-q⌋

/-- Source `boidGrid` (kernel.cu:606): per axis, `(int)((location - gridMin) *
inverseCellWidth)` — a truncating cast, not a floor. -/
def boidGrid (location gridMin : Vec3) (inverseCellWidth : ℚ) : ℤ × ℤ × ℤ :=
  (ratTrunc ((location.1 - gridMin.1) * inverseCellWidth),
   ratTrunc ((location.2.1 - gridMin.2.1) * inverseCellWidth),
   ratTrunc ((location.2.2 - gridMin.2.2) * inverseCellWidth))

/-- Source `kernResetIntBuffer` (kernel.cu:634): sets every entry of the buffer to
`value`; modelled as the resulting table. -/
def kernResetIntBuffer (value : ℤ) : ℤ → ℤ := fun _ => value

/-- Array write `f[k] = v`, as a function update. -/
def writeAt (f : ℤ → ℤ) (k v : ℤ) : ℤ → ℤ := fun c => if c = k then v else f c

/-- The body of one thread of `kernIdentifyCellStartEnd` (kernel.cu:685),
acting on the pair (start table, end table). -/
def identifyThread (N : ℤ) (particleGridIndices : ℤ → ℤ) (index : ℤ)
    (tables : (ℤ → ℤ) × (ℤ → ℤ)) : (ℤ → ℤ) × (ℤ → ℤ) :=
  let currentGridLoc := particleGridIndices index
  if index = 0 then
    (writeAt tables.1 currentGridLoc index, tables.2)
  else
    let priorGridLoc := particleGridIndices (index - 1)
    if priorGridLoc = currentGridLoc then tables
    else
      let endT := writeAt tables.2 priorGridLoc index
      let startT := writeAt tables.1 currentGridLoc index
      if index = N - 1 then (startT, writeAt endT currentGridLoc N)
      else (startT, endT)

/-- Source `kernIdentifyCellStartEnd` (kernel.cu:685) over all `N` threads.  For
sorted input the threads write disjoint table entries, so folding the thread
bodies in index order gives the parallel outcome. -/
def kernIdentifyCellStartEnd (N : ℤ) (particleGridIndices : ℤ → ℤ)
    (gridCellStartIndices gridCellEndIndices : ℤ → ℤ) : (ℤ → ℤ) × (ℤ → ℤ) :=
  (intRange 0 N).foldl (fun tables index => identifyThread N particleGridIndices index tables)
    (gridCellStartIndices, gridCellEndIndices)

/-- The indices visited by the two loops of the brute-force rules
(kernel.cu:281,287): `[0, iSelf)` then `(iSelf, N)`. -/
def bruteNeighbors (N iSelf : ℤ) : List ℤ :=
  intRange 0 iSelf ++ intRange (iSelf + 1) N

/-- Slot loop of a scattered/coherent rule for one candidate cell
(kernel.cu:311): `for (i = gridCellStartIndices[c]; i < gridCellEndIndices[c]; ++i)`. -/
def cellSlots (gridCellStartIndices gridCellEndIndices : ℤ → ℤ) (c : ℤ) : List ℤ :=
  intRange (gridCellStartIndices c) (gridCellEndIndices c)

/-- Neighbor stream of the `Scatter` rule variants: for each candidate cell,
the sorted slots of that cell, dereferenced through `particleArrayIndices`. -/
def scatterEnum (gridCellStartIndices gridCellEndIndices particleArrayIndices : ℤ → ℤ)
    (usedGridIndices : List ℤ) : List ℤ :=
  usedGridIndices.flatMap
    (fun c => (cellSlots gridCellStartIndices gridCellEndIndices c).map particleArrayIndices)

/-- Neighbor stream of the `Coherent` rule variants: the sorted slots
themselves index the (reordered) particle arrays. -/
def coherentEnum (gridCellStartIndices gridCellEndIndices : ℤ → ℤ)
    (usedGridIndices : List ℤ) : List ℤ :=
  usedGridIndices.flatMap (cellSlots gridCellStartIndices gridCellEndIndices)

/-- Shared shape of `rule1`/`rule1Scatter`/`rule1Coherent` (cohesion) after
the neighbor stream `nb` (already filtered by the self- and distance-guards)
is fixed: `pc` accumulates positions, `n` counts, and the result is
`(pc / n - pos[iSelf]) * scale`, or zero when `n == 0`. -/
def ruleMean (nb : List ℤ) (posOf : ℤ → Vec3) (self : Vec3) (scale : ℚ) : Vec3 :=
  if nb.length = 0 then 0
  else scale • (((nb.length : ℚ))⁻¹ • (nb.map posOf).sum - self)

/-- Shared shape of `rule2`/`rule2Scatter`/`rule2Coherent` (separation):
`c -= pos[j] - pos[iSelf]` per in-range neighbor, then `c * scale`. -/
def ruleSep (nb : List ℤ) (posOf : ℤ → Vec3) (self : Vec3) (scale : ℚ) : Vec3 :=
  scale • (nb.map (fun j => self - posOf j)).sum

/-- Shared shape of `rule3`/`rule3Scatter`/`rule3Coherent` (alignment):
`vsum` accumulates velocities, `n` counts, and `vsum *= scale / n` is applied
only when `n != 0`. -/
def ruleAlign (nb : List ℤ) (velOf : ℤ → Vec3) (scale : ℚ) : Vec3 :=
  if nb.length ≠ 0 then (scale / (nb.length : ℚ)) • (nb.map velOf).sum
  else (nb.map velOf).sum

/-- Source `rule1` (kernel.cu:277): cohesion over all other particles. -/
def rule1 (N iSelf : ℤ) (pos : ℤ → Vec3) (scale : ℚ) : Vec3 :=
  ruleMean ((bruteNeighbors N iSelf).filter (fun i => inDistB (pos i) (pos iSelf) rule1Distance))
    pos (pos iSelf) scale

/-- Source `rule2` (kernel.cu:359): separation over all other particles. -/
def rule2 (N iSelf : ℤ) (pos : ℤ → Vec3) (scale : ℚ) : Vec3 :=
  ruleSep ((bruteNeighbors N iSelf).filter (fun i => inDistB (pos i) (pos iSelf) rule2Distance))
    pos (pos iSelf) scale

/-- Source `rule3` (kernel.cu:416): alignment over all other particles. -/
def rule3 (N iSelf : ℤ) (pos vel : ℤ → Vec3) (scale : ℚ) : Vec3 :=
  ruleAlign ((bruteNeighbors N iSelf).filter (fun i => inDistB (pos i) (pos iSelf) rule3Distance))
    vel scale

/-- Source `rule1Scatter` (kernel.cu:300): candidate cells, slots dereferenced
through `particleArrayIndices`, skipping `neighbor == iSelf`. -/
def rule1Scatter (iSelf : ℤ) (gridCellStartIndices gridCellEndIndices particleArrayIndices : ℤ → ℤ)
    (pos : ℤ → Vec3) (usedGridIndices : List ℤ) (scale : ℚ) : Vec3 :=
  ruleMean ((scatterEnum gridCellStartIndices gridCellEndIndices particleArrayIndices
      usedGridIndices).filter
      (fun j => j != iSelf && inDistB (pos j) (pos iSelf) rule1Distance))
    pos (pos iSelf) scale

/-- Source `rule2Scatter` (kernel.cu:374). -/
def rule2Scatter (iSelf : ℤ) (gridCellStartIndices gridCellEndIndices particleArrayIndices : ℤ → ℤ)
    (pos : ℤ → Vec3) (usedGridIndices : List ℤ) (scale : ℚ) : Vec3 :=
  ruleSep ((scatterEnum gridCellStartIndices gridCellEndIndices particleArrayIndices
      usedGridIndices).filter
      (fun j => j != iSelf && inDistB (pos j) (pos iSelf) rule2Distance))
    pos (pos iSelf) scale

/-- Source `rule3Scatter` (kernel.cu:438). -/
def rule3Scatter (iSelf : ℤ) (gridCellStartIndices gridCellEndIndices particleArrayIndices : ℤ → ℤ)
    (pos vel : ℤ → Vec3) (usedGridIndices : List ℤ) (scale : ℚ) : Vec3 :=
  ruleAlign ((scatterEnum gridCellStartIndices gridCellEndIndices particleArrayIndices
      usedGridIndices).filter
      (fun j => j != iSelf && inDistB (pos j) (pos iSelf) rule3Distance))
    vel scale

/-- Source `rule1Coherent` (kernel.cu:331): slots index the reordered arrays
directly, skipping `neighbor == iSelf`. -/
def rule1Coherent (iSelf : ℤ) (gridCellStartIndices gridCellEndIndices : ℤ → ℤ)
    (pos : ℤ → Vec3) (usedGridIndices : List ℤ) (scale : ℚ) : Vec3 :=
  ruleMean ((coherentEnum gridCellStartIndices gridCellEndIndices usedGridIndices).filter
      (fun j => j != iSelf && inDistB (pos j) (pos iSelf) rule1Distance))
    pos (pos iSelf) scale

/-- Source `rule2Coherent` (kernel.cu:395). -/
def rule2Coherent (iSelf : ℤ) (gridCellStartIndices gridCellEndIndices : ℤ → ℤ)
    (pos : ℤ → Vec3) (usedGridIndices : List ℤ) (scale : ℚ) : Vec3 :=
  ruleSep ((coherentEnum gridCellStartIndices gridCellEndIndices usedGridIndices).filter
      (fun j => j != iSelf && inDistB (pos j) (pos iSelf) rule2Distance))
    pos (pos iSelf) scale

/-- Source `rule3Coherent` (kernel.cu:465). -/
def rule3Coherent (iSelf : ℤ) (gridCellStartIndices gridCellEndIndices : ℤ → ℤ)
    (pos vel : ℤ → Vec3) (usedGridIndices : List ℤ) (scale : ℚ) : Vec3 :=
  ruleAlign ((coherentEnum gridCellStartIndices gridCellEndIndices usedGridIndices).filter
      (fun j => j != iSelf && inDistB (pos j) (pos iSelf) rule3Distance))
    vel scale

/-- Source `computeVelocityChange` (kernel.cu:531): sum of the three brute-force
rules at their configured scales. -/
def computeVelocityChange (N iSelf : ℤ) (pos vel : ℤ → Vec3) : Vec3 :=
  rule1 N iSelf pos rule1Scale + rule2 N iSelf pos rule2Scale + rule3 N iSelf pos vel rule3Scale

/-- Source `computeVelocityChangeScattered` (kernel.cu:494). -/
def computeVelocityChangeScattered (iSelf : ℤ)
    (gridCellStartIndices gridCellEndIndices particleArrayIndices : ℤ → ℤ)
    (pos vel : ℤ → Vec3) (usedGridIndices : List ℤ) : Vec3 :=
  rule1Scatter iSelf gridCellStartIndices gridCellEndIndices particleArrayIndices pos
      usedGridIndices rule1Scale
    + rule2Scatter iSelf gridCellStartIndices gridCellEndIndices particleArrayIndices pos
      usedGridIndices rule2Scale
    + rule3Scatter iSelf gridCellStartIndices gridCellEndIndices particleArrayIndices pos vel
      usedGridIndices rule3Scale

/-- Source `computeVelocityChangeCoherent` (kernel.cu:513). -/
def computeVelocityChangeCoherent (iSelf : ℤ) (gridCellStartIndices gridCellEndIndices : ℤ → ℤ)
    (pos vel : ℤ → Vec3) (usedGridIndices : List ℤ) : Vec3 :=
  rule1Coherent iSelf gridCellStartIndices gridCellEndIndices pos usedGridIndices rule1Scale
    + rule2Coherent iSelf gridCellStartIndices gridCellEndIndices pos usedGridIndices rule2Scale
    + rule3Coherent iSelf gridCellStartIndices gridCellEndIndices pos vel usedGridIndices rule3Scale

/-- The speed clamp shared by all velocity-update kernels
(kernel.cu:557,748,801): `length = glm::length(v); if (length > maxSpeed)
v = maxSpeed/length * v`.  The square root `glm::length` is supplied as the
function `sq` applied to the squared norm. -/
def clampSpeed (sq : ℚ → ℚ) (v : Vec3) : Vec3 :=
  if maxSpeed < sq (normSq v) then (maxSpeed / sq (normSq v)) • v else v

/-- Source `kernUpdateVelocityBruteForce` (kernel.cu:549): the value thread `boid`
stores into `vel2`. -/
def kernUpdateVelocityBruteForce (sq : ℚ → ℚ) (N : ℤ) (pos vel1 : ℤ → Vec3) : ℤ → Vec3 :=
  fun boid => clampSpeed sq (vel1 boid + computeVelocityChange N boid pos vel1)

/-- One axis of the wrap in `kernUpdatePos` (kernel.cu:579-585):
`x = x < -scene_scale ? scene_scale : x; x = x > scene_scale ? -scene_scale : x`,
with `s` for `scene_scale`. -/
def wrap1 (s x : ℚ) : ℚ :=
  let x1 := if x < -s then s else x
  if s < x1 then -s else x1

/-- Source `kernUpdatePos` (kernel.cu:569): advance by `vel * dt`, then wrap each
axis; the value thread `index` stores into `pos`. -/
def kernUpdatePos (dt : ℚ) (pos vel : ℤ → Vec3) : ℤ → Vec3 :=
  fun index =>
    let thisPos := pos index + dt • vel index
    (wrap1 scene_scale thisPos.1, wrap1 scene_scale thisPos.2.1, wrap1 scene_scale thisPos.2.2)

/-- Source `kernComputeIndices` (kernel.cu:613): for each boid the pair
`(gridIndices[boid], indices[boid]) = (cellId(pos[boid]), boid)`. -/
def kernComputeIndices (N : ℕ) (gridResolution : ℤ) (gridMin : Vec3) (inverseCellWidth : ℚ)
    (pos : ℕ → Vec3) : List (ℤ × ℕ) :=
  (List.range N).map (fun boid =>
    let gridCoord := boidGrid (pos boid) gridMin inverseCellWidth
    (gridIndex3Dto1D gridCoord.1 gridCoord.2.1 gridCoord.2.2 gridResolution, boid))

/-- Modelled from the spec: the external `thrust::sort_by_key` collaborator
(spec §6), which permutes the `(gridCellId, arrayIndex)` pairs so the keys
are non-decreasing (stability not required); the sort itself is not part of
the repository.  Embedded as a merge sort on the key component. -/
def sort_by_key (l : List (ℤ × ℕ)) : List (ℤ × ℕ) :=
  l.mergeSort (fun a b => decide (a.1 ≤ b.1))

/-- Source `kernMakeCoherent` (kernel.cu:758) for one of its two array arguments:
`to[index] = from[particleArrayIndices[index]]`. -/
def kernMakeCoherent (particleArrayIndices : ℤ → ℤ) (src : ℤ → Vec3) : ℤ → Vec3 :=
  fun index => src (particleArrayIndices index)

/-- Source `findGridCells` (kernel.cu:648): the candidate cells written before the
`-1` terminator, in write order — for each of the two extreme points
`pos[iSelf] ± cellWidth/2`, four probes offset in x/y, kept only if
`gridInRange` holds and the cell's start index is not the sentinel. -/
def findGridCells (iSelf : ℤ) (gridResolution : ℤ) (gridMin : Vec3) (inverseCellWidth : ℚ)
    (cellWidth : ℚ) (gridCellStartIndices : ℤ → ℤ) (pos : ℤ → Vec3) : List ℤ :=
  let xoffsets : List ℤ := [0, 1, 0, 1]
  let yoffsets : List ℤ := [0, 0, 1, 1]
  let offsets := xoffsets.zip yoffsets
  let boidOffset : Vec3 := (cellWidth * (1/2), cellWidth * (1/2), cellWidth * (1/2))
  let cellindices1 := boidGrid (pos iSelf + boidOffset) gridMin inverseCellWidth
  let probe1 := offsets.filterMap (fun d =>
    let cpy := (cellindices1.1 - d.1, cellindices1.2.1 - d.2, cellindices1.2.2)
    let gridCell := gridIndex3Dto1D cpy.1 cpy.2.1 cpy.2.2 gridResolution
    if gridInRange cpy gridResolution ∧ gridCellStartIndices gridCell ≠ -1
    then some gridCell else none)
  let cellindices2 := boidGrid (pos iSelf - boidOffset) gridMin inverseCellWidth
  let probe2 := offsets.filterMap (fun d =>
    let cpy := (cellindices2.1 + d.1, cellindices2.2.1 + d.2, cellindices2.2.2)
    let gridCell := gridIndex3Dto1D cpy.1 cpy.2.1 cpy.2.2 gridResolution
    if gridInRange cpy gridResolution ∧ gridCellStartIndices gridCell ≠ -1
    then some gridCell else none)
  probe1 ++ probe2

/-- Source `kernUpdateVelNeighborSearchScattered` (kernel.cu:720): thread `t`
remaps itself through `particleArrayIndices`, finds candidate cells, and
stores the clamped updated velocity (into `vel2[iSelf]`). -/
def kernUpdateVelNeighborSearchScattered (sq : ℚ → ℚ) (gridResolution : ℤ)
    (gridMin : Vec3) (inverseCellWidth cellWidth : ℚ)
    (gridCellStartIndices gridCellEndIndices particleArrayIndices : ℤ → ℤ)
    (pos vel1 : ℤ → Vec3) : ℤ → Vec3 :=
  fun t =>
    let iSelf := particleArrayIndices t
    let usedGridCells := findGridCells iSelf gridResolution gridMin inverseCellWidth cellWidth
      gridCellStartIndices pos
    clampSpeed sq (vel1 iSelf + computeVelocityChangeScattered iSelf gridCellStartIndices
      gridCellEndIndices particleArrayIndices pos vel1 usedGridCells)

/-- Source `kernUpdateVelNeighborSearchCoherent` (kernel.cu:772): thread `iSelf`
works directly on the reordered arrays. -/
def kernUpdateVelNeighborSearchCoherent (sq : ℚ → ℚ) (gridResolution : ℤ)
    (gridMin : Vec3) (inverseCellWidth cellWidth : ℚ)
    (gridCellStartIndices gridCellEndIndices : ℤ → ℤ)
    (pos vel1 : ℤ → Vec3) : ℤ → Vec3 :=
  fun iSelf =>
    let usedGridCells := findGridCells iSelf gridResolution gridMin inverseCellWidth cellWidth
      gridCellStartIndices pos
    clampSpeed sq (vel1 iSelf + computeVelocityChangeCoherent iSelf gridCellStartIndices
      gridCellEndIndices pos vel1 usedGridCells)

/-! ## Helper lemmas -/

theorem mem_bruteNeighbors {N i j : ℤ} :
    j ∈ bruteNeighbors N i ↔ (0 ≤ j ∧ j < i) ∨ (i + 1 ≤ j ∧ j < N) := by
  simp [bruteNeighbors, mem_intRange]

theorem nodup_bruteNeighbors (N i : ℤ) : (bruteNeighbors N i).Nodup := by
  unfold bruteNeighbors
  rw [List.nodup_append]
  refine ⟨nodup_intRange _ _, nodup_intRange _ _, ?_⟩
  intro a ha hb
  rw [mem_intRange] at ha hb
  omega

theorem mem_scatterEnum {startT endT arrayIdx : ℤ → ℤ} {cands : List ℤ} {j : ℤ} :
    j ∈ scatterEnum startT endT arrayIdx cands ↔
      ∃ c ∈ cands, ∃ t, (startT c ≤ t ∧ t < endT c) ∧ arrayIdx t = j := by
  simp [scatterEnum, cellSlots, List.mem_flatMap, List.mem_map, mem_intRange]

theorem mem_coherentEnum {startT endT : ℤ → ℤ} {cands : List ℤ} {t : ℤ} :
    t ∈ coherentEnum startT endT cands ↔ ∃ c ∈ cands, startT c ≤ t ∧ t < endT c := by
  simp [coherentEnum, cellSlots, List.mem_flatMap, mem_intRange]

theorem nodup_flatMap_of {α β : Type} (l : List α) (f : α → List β) (hl : l.Nodup)
    (hf : ∀ c ∈ l, (f c).Nodup)
    (hdisj : ∀ c₁ ∈ l, ∀ c₂ ∈ l, c₁ ≠ c₂ → ∀ a, a ∈ f c₁ → a ∈ f c₂ → False) :
    (l.flatMap f).Nodup := by
  induction l with
  | nil => simp
  | cons c cs ih =>
    rw [List.nodup_cons] at hl
    simp only [List.flatMap_cons]
    rw [List.nodup_append]
    refine ⟨hf c (by simp), ?_, ?_⟩
    · exact ih hl.2 (fun c2 h2 => hf c2 (by simp [h2]))
        (fun c1 h1 c2 h2 hne => hdisj c1 (by simp [h1]) c2 (by simp [h2]) hne)
    · intro a ha hmem
      rw [List.mem_flatMap] at hmem
      obtain ⟨c2, hc2, ha2⟩ := hmem
      refine hdisj c (by simp) c2 (by simp [hc2]) ?_ a ha ha2
      rintro rfl
      exact hl.1 hc2

theorem ruleMean_congr {nb₁ nb₂ : List ℤ} {f g : ℤ → Vec3} {self : Vec3} {scale : ℚ}
    (h : (nb₁.map f).Perm (nb₂.map g)) :
    ruleMean nb₁ f self scale = ruleMean nb₂ g self scale := by
  have hlen : nb₁.length = nb₂.length := by
    have h2 := h.length_eq
    simpa using h2
  unfold ruleMean
  rw [hlen, h.sum_eq]

theorem ruleSep_congr {nb₁ nb₂ : List ℤ} {f g : ℤ → Vec3} {self : Vec3} {scale : ℚ}
    (h : (nb₁.map f).Perm (nb₂.map g)) :
    ruleSep nb₁ f self scale = ruleSep nb₂ g self scale := by
  unfold ruleSep
  have e1 : nb₁.map (fun j => self - f j) = (nb₁.map f).map (fun v => self - v) := by
    simp [List.map_map, Function.comp]
  have e2 : nb₂.map (fun j => self - g j) = (nb₂.map g).map (fun v => self - v) := by
    simp [List.map_map, Function.comp]
  rw [e1, e2, (h.map _).sum_eq]

theorem ruleAlign_congr {nb₁ nb₂ : List ℤ} {f g : ℤ → Vec3} {scale : ℚ}
    (h : (nb₁.map f).Perm (nb₂.map g)) :
    ruleAlign nb₁ f scale = ruleAlign nb₂ g scale := by
  have hlen : nb₁.length = nb₂.length := by
    have h2 := h.length_eq
    simpa using h2
  unfold ruleAlign
  rw [hlen, h.sum_eq]

theorem maxRule_eq : maxRuleDistance = rule1Distance := by
  norm_num [maxRuleDistance, rule1Distance, rule2Distance, rule3Distance]

theorem inDistB_mono {p q : Vec3} {r R : ℚ} (h : r * r ≤ R * R) :
    inDistB p q r = true → inDistB p q R = true := by
  simp only [inDistB, decide_eq_true_eq]
  intro h2
  linarith

/-- The sorted-grid invariants that make the scattered and coherent neighbor
evaluations see exactly the brute-force neighbor multiset: the sorted
`arrayIndex` table is a permutation of `[0,N)` (spec §3 "Particle Index
Pair"); a slot lies in a cell's `[start, end)` range iff the particle it
holds is in that cell, and candidate-cell ranges stay within `[0,N)`
(spec §3 "Cell Range Table"); the candidate list is duplicate-free and
covers every cell holding a particle within the largest rule radius of
particle `i` (spec §4.4). -/
structure GridInvariants (N i : ℤ) (pos : ℤ → Vec3) (cellOf : ℤ → ℤ)
    (startT endT arrayIdx : ℤ → ℤ) (cands : List ℤ) : Prop where
  hi : 0 ≤ i ∧ i < N
  hrange : ∀ t, 0 ≤ t → t < N → 0 ≤ arrayIdx t ∧ arrayIdx t < N
  hinj : ∀ t₁ t₂, 0 ≤ t₁ → t₁ < N → 0 ≤ t₂ → t₂ < N → arrayIdx t₁ = arrayIdx t₂ → t₁ = t₂
  hsurj : ∀ j, 0 ≤ j → j < N → ∃ t, 0 ≤ t ∧ t < N ∧ arrayIdx t = j
  hpart : ∀ t, 0 ≤ t → t < N → ∀ c, (startT c ≤ t ∧ t < endT c ↔ cellOf (arrayIdx t) = c)
  hbounds : ∀ c ∈ cands, 0 ≤ startT c ∧ endT c ≤ N
  hnodup : cands.Nodup
  hcover : ∀ j, 0 ≤ j → j < N →
    inDistB (pos j) (pos i) maxRuleDistance = true → cellOf j ∈ cands

theorem scatter_filter_perm {N i : ℤ} {pos : ℤ → Vec3} {cellOf startT endT arrayIdx : ℤ → ℤ}
    {cands : List ℤ} (hG : GridInvariants N i pos cellOf startT endT arrayIdx cands)
    (r : ℚ)
    (hmono : ∀ j, inDistB (pos j) (pos i) r = true →
      inDistB (pos j) (pos i) maxRuleDistance = true) :
    ((scatterEnum startT endT arrayIdx cands).filter
        (fun j => j != i && inDistB (pos j) (pos i) r)).Perm
      ((bruteNeighbors N i).filter (fun j => inDistB (pos j) (pos i) r)) := by
  obtain ⟨hi, hrange, hinj, hsurj, hpart, hbounds, hnodup, hcover⟩ := hG
  have hnodupS : (scatterEnum startT endT arrayIdx cands).Nodup := by
    refine nodup_flatMap_of _ _ hnodup ?_ ?_
    · intro c hc
      refine List.Nodup.map_on ?_ (nodup_intRange _ _)
      intro t₁ ht₁ t₂ ht₂ heq
      rw [cellSlots, mem_intRange] at ht₁ ht₂
      have hb := hbounds c hc
      exact hinj t₁ t₂ (by omega) (by omega) (by omega) (by omega) heq
    · intro c₁ hc₁ c₂ hc₂ hne a ha₁ ha₂
      rw [List.mem_map] at ha₁ ha₂
      obtain ⟨t₁, ht₁, hat₁⟩ := ha₁
      obtain ⟨t₂, ht₂, hat₂⟩ := ha₂
      rw [cellSlots, mem_intRange] at ht₁ ht₂
      have hb₁ := hbounds c₁ hc₁
      have hb₂ := hbounds c₂ hc₂
      have e₁ : cellOf (arrayIdx t₁) = c₁ :=
        (hpart t₁ (by omega) (by omega) c₁).mp (by omega)
      have e₂ : cellOf (arrayIdx t₂) = c₂ :=
        (hpart t₂ (by omega) (by omega) c₂).mp (by omega)
      rw [hat₁] at e₁
      rw [hat₂] at e₂
      exact hne (e₁ ▸ e₂ ▸ rfl)
  refine (List.perm_ext_iff_of_nodup (hnodupS.filter _)
    ((nodup_bruteNeighbors N i).filter _)).mpr ?_
  intro j
  simp only [List.mem_filter, Bool.and_eq_true, bne_iff_ne, ne_eq]
  constructor
  · rintro ⟨hmem, hne, hd⟩
    rw [mem_scatterEnum] at hmem
    obtain ⟨c, hc, t, hts, hat⟩ := hmem
    have hb := hbounds c hc
    have hj := hrange t (by omega) (by omega)
    rw [hat] at hj
    refine ⟨mem_bruteNeighbors.mpr (by omega), hd⟩
  · rintro ⟨hmem, hd⟩
    rw [mem_bruteNeighbors] at hmem
    have hne : ¬ j = i := by omega
    have hjb : 0 ≤ j ∧ j < N := by omega
    obtain ⟨t, ht0, htN, hat⟩ := hsurj j hjb.1 hjb.2
    have hcell : cellOf j ∈ cands := hcover j hjb.1 hjb.2 (hmono j hd)
    have hslot : startT (cellOf j) ≤ t ∧ t < endT (cellOf j) := by
      refine (hpart t ht0 htN (cellOf j)).mpr ?_
      rw [hat]
    exact ⟨mem_scatterEnum.mpr ⟨cellOf j, hcell, t, hslot, hat⟩, hne, hd⟩

theorem coherent_filter_perm {N i : ℤ} {pos : ℤ → Vec3} {cellOf startT endT arrayIdx : ℤ → ℤ}
    {cands : List ℤ} (hG : GridInvariants N i pos cellOf startT endT arrayIdx cands)
    (s : ℤ) (hs : 0 ≤ s ∧ s < N) (hsi : arrayIdx s = i) (r : ℚ)
    (hmono : ∀ j, inDistB (pos j) (pos i) r = true →
      inDistB (pos j) (pos i) maxRuleDistance = true) :
    (((coherentEnum startT endT cands).filter
        (fun t => t != s && inDistB (pos (arrayIdx t)) (pos i) r)).map arrayIdx).Perm
      ((bruteNeighbors N i).filter (fun j => inDistB (pos j) (pos i) r)) := by
  obtain ⟨hi, hrange, hinj, hsurj, hpart, hbounds, hnodup, hcover⟩ := hG
  have hmemC : ∀ t ∈ coherentEnum startT endT cands, 0 ≤ t ∧ t < N := by
    intro t ht
    rw [mem_coherentEnum] at ht
    obtain ⟨c, hc, hts⟩ := ht
    have hb := hbounds c hc
    omega
  have hnodupC : (coherentEnum startT endT cands).Nodup := by
    refine nodup_flatMap_of _ _ hnodup ?_ ?_
    · intro c _
      exact nodup_intRange _ _
    · intro c₁ hc₁ c₂ hc₂ hne t ht₁ ht₂
      rw [cellSlots, mem_intRange] at ht₁ ht₂
      have hb₁ := hbounds c₁ hc₁
      have e₁ : cellOf (arrayIdx t) = c₁ :=
        (hpart t (by omega) (by omega) c₁).mp (by omega)
      have e₂ : cellOf (arrayIdx t) = c₂ :=
        (hpart t (by omega) (by omega) c₂).mp (by omega)
      exact hne (e₁ ▸ e₂ ▸ rfl)
  have hnodupL : (((coherentEnum startT endT cands).filter
      (fun t => t != s && inDistB (pos (arrayIdx t)) (pos i) r)).map arrayIdx).Nodup := by
    refine List.Nodup.map_on ?_ (hnodupC.filter _)
    intro t₁ ht₁ t₂ ht₂ heq
    rw [List.mem_filter] at ht₁ ht₂
    have hb₁ := hmemC t₁ ht₁.1
    have hb₂ := hmemC t₂ ht₂.1
    exact hinj t₁ t₂ hb₁.1 hb₁.2 hb₂.1 hb₂.2 heq
  refine (List.perm_ext_iff_of_nodup hnodupL
    ((nodup_bruteNeighbors N i).filter _)).mpr ?_
  intro j
  simp only [List.mem_map, List.mem_filter, Bool.and_eq_true, bne_iff_ne, ne_eq]
  constructor
  · rintro ⟨t, ⟨hmem, hne, hd⟩, hat⟩
    have hb := hmemC t hmem
    have hj := hrange t hb.1 hb.2
    rw [hat] at hj hd
    have hji : ¬ j = i := by
      intro hji
      refine hne (hinj t s hb.1 hb.2 hs.1 hs.2 ?_)
      rw [hat, hsi, hji]
    refine ⟨mem_bruteNeighbors.mpr (by omega), hd⟩
  · rintro ⟨hmem, hd⟩
    rw [mem_bruteNeighbors] at hmem
    have hji : ¬ j = i := by omega
    have hjb : 0 ≤ j ∧ j < N := by omega
    obtain ⟨t, ht0, htN, hat⟩ := hsurj j hjb.1 hjb.2
    have hcell : cellOf j ∈ cands := hcover j hjb.1 hjb.2 (hmono j hd)
    have hslot : startT (cellOf j) ≤ t ∧ t < endT (cellOf j) := by
      refine (hpart t ht0 htN (cellOf j)).mpr ?_
      rw [hat]
    have htne : ¬ t = s := by
      intro hts
      rw [hts, hsi] at hat
      exact hji hat.symm
    refine ⟨t, ⟨mem_coherentEnum.mpr ⟨cellOf j, hcell, hslot⟩, htne, ?_⟩, hat⟩
    rw [hat]
    exact hd

/-- C2: under the grid invariants, the scattered-grid velocity delta of
particle `i` and the coherent-grid velocity delta evaluated at its reordered
slot `s` both equal the brute-force velocity delta (exact arithmetic). -/
theorem computeVelocityChange_equiv {N i s : ℤ} {pos vel : ℤ → Vec3}
    {cellOf startT endT arrayIdx : ℤ → ℤ} {cands : List ℤ}
    (hG : GridInvariants N i pos cellOf startT endT arrayIdx cands)
    (hs : 0 ≤ s ∧ s < N) (hsi : arrayIdx s = i) :
    computeVelocityChangeScattered i startT endT arrayIdx pos vel cands
        = computeVelocityChange N i pos vel
      ∧ computeVelocityChangeCoherent s startT endT (kernMakeCoherent arrayIdx pos)
          (kernMakeCoherent arrayIdx vel) cands
        = computeVelocityChange N i pos vel := by
  have hmono1 : ∀ j, inDistB (pos j) (pos i) rule1Distance = true →
      inDistB (pos j) (pos i) maxRuleDistance = true := by
    intro j h
    rw [maxRule_eq]
    exact h
  have hmono2 : ∀ j, inDistB (pos j) (pos i) rule2Distance = true →
      inDistB (pos j) (pos i) maxRuleDistance = true := by
    intro j
    refine inDistB_mono ?_
    rw [maxRule_eq]
    norm_num [rule1Distance, rule2Distance]
  have hmono3 : ∀ j, inDistB (pos j) (pos i) rule3Distance = true →
      inDistB (pos j) (pos i) maxRuleDistance = true := by
    intro j
    refine inDistB_mono ?_
    rw [maxRule_eq]
    norm_num [rule1Distance, rule3Distance]
  constructor
  · have h1 : rule1Scatter i startT endT arrayIdx pos cands rule1Scale
        = rule1 N i pos rule1Scale :=
      ruleMean_congr ((scatter_filter_perm hG rule1Distance hmono1).map pos)
    have h2 : rule2Scatter i startT endT arrayIdx pos cands rule2Scale
        = rule2 N i pos rule2Scale :=
      ruleSep_congr ((scatter_filter_perm hG rule2Distance hmono2).map pos)
    have h3 : rule3Scatter i startT endT arrayIdx pos vel cands rule3Scale
        = rule3 N i pos vel rule3Scale :=
      ruleAlign_congr ((scatter_filter_perm hG rule3Distance hmono3).map vel)
    unfold computeVelocityChangeScattered computeVelocityChange
    rw [h1, h2, h3]
  · have hposC : kernMakeCoherent arrayIdx pos s = pos i := by
      simp [kernMakeCoherent, hsi]
    have hfc : ∀ r : ℚ,
        ((coherentEnum startT endT cands).filter
          (fun t => t != s && inDistB (kernMakeCoherent arrayIdx pos t)
            (kernMakeCoherent arrayIdx pos s) r))
        = ((coherentEnum startT endT cands).filter
          (fun t => t != s && inDistB (pos (arrayIdx t)) (pos i) r)) := by
      intro r
      refine List.filter_congr ?_
      intro t _
      simp [kernMakeCoherent, hsi]
    have hmap : ∀ (r : ℚ) (f : ℤ → Vec3),
        (((coherentEnum startT endT cands).filter
            (fun t => t != s && inDistB (pos (arrayIdx t)) (pos i) r)).map
          (kernMakeCoherent arrayIdx f))
          = ((((coherentEnum startT endT cands).filter
            (fun t => t != s && inDistB (pos (arrayIdx t)) (pos i) r)).map arrayIdx).map f) := by
      intro r f
      rw [List.map_map]
      rfl
    have h1 : rule1Coherent s startT endT (kernMakeCoherent arrayIdx pos) cands rule1Scale
        = rule1 N i pos rule1Scale := by
      unfold rule1Coherent rule1
      rw [hfc rule1Distance, hposC]
      refine ruleMean_congr ?_
      rw [hmap rule1Distance pos]
      exact (coherent_filter_perm hG s hs hsi rule1Distance hmono1).map pos
    have h2 : rule2Coherent s startT endT (kernMakeCoherent arrayIdx pos) cands rule2Scale
        = rule2 N i pos rule2Scale := by
      unfold rule2Coherent rule2
      rw [hfc rule2Distance, hposC]
      refine ruleSep_congr ?_
      rw [hmap rule2Distance pos]
      exact (coherent_filter_perm hG s hs hsi rule2Distance hmono2).map pos
    have h3 : rule3Coherent s startT endT (kernMakeCoherent arrayIdx pos)
        (kernMakeCoherent arrayIdx vel) cands rule3Scale
        = rule3 N i pos vel rule3Scale := by
      unfold rule3Coherent rule3
      rw [hfc rule3Distance]
      refine ruleAlign_congr ?_
      rw [hmap rule3Distance vel]
      exact (coherent_filter_perm hG s hs hsi rule3Distance hmono3).map vel
    unfold computeVelocityChangeCoherent computeVelocityChange
    rw [h1, h2, h3]

/-! ## Claim theorems -/

/-- C1 (code bug evaluation): with `N = 2` and both sorted slots in cell 5
(tables reset to `-1`), `kernIdentifyCellStartEnd` sets the cell's start
index to 0 but leaves its end index at the sentinel `-1`: the thread for the
last slot returns at the "no change" early-exit before it can close the last
cell, so no occupied cell satisfies `start < end ≤ N` here and the final
cell's end index is never set to `N`. -/
theorem kernIdentifyCellStartEnd_last_cell_bug :
    ((kernIdentifyCellStartEnd 2 (fun _ => 5) (kernResetIntBuffer (-1))
        (kernResetIntBuffer (-1))).1 5 = 0)
    ∧ ((kernIdentifyCellStartEnd 2 (fun _ => 5) (kernResetIntBuffer (-1))
        (kernResetIntBuffer (-1))).2 5 = -1) := by
  constructor <;> rfl

/-- C4 (amended): the position wrap leaves a coordinate exactly at
`+domainScale` (and anything in `[-domainScale, domainScale]`) unchanged;
only values strictly below `-domainScale` map to `+domainScale` and values
strictly above `+domainScale` map to `-domainScale`. -/
theorem wrap1_amended (s x : ℚ) (hs : 0 < s) :
    (x < -s → wrap1 s x = s)
    ∧ (-s ≤ x → x ≤ s → wrap1 s x = x)
    ∧ (s < x → wrap1 s x = -s) := by
  unfold wrap1
  refine ⟨?_, ?_, ?_⟩
  · intro h
    simp only [if_pos h]
    rw [if_neg (lt_irrefl s)]
  · intro h1 h2
    rw [if_neg (not_lt.mpr h1), if_neg (not_lt.mpr h2)]
  · intro h
    rw [if_neg (show ¬ x < -s by linarith)]
    rw [if_pos h]

/-- Witness for C4 at `domainScale = 100`: the boundary value stays, a value
below `-100` wraps to `100`, a value above `100` wraps to `-100`. -/
theorem wrap1_amended_witness :
    (0 : ℚ) < 100 ∧ wrap1 100 100 = 100 ∧ wrap1 100 (-150) = 100 ∧ wrap1 100 150 = -100 :=
  ⟨by norm_num,
   (wrap1_amended 100 100 (by norm_num)).2.1 (by norm_num) (by norm_num),
   (wrap1_amended 100 (-150) (by norm_num)).1 (by norm_num),
   (wrap1_amended 100 150 (by norm_num)).2.2 (by norm_num)⟩

/-- C4 counterexample: a coordinate exactly at `+domainScale` is NOT wrapped
to `-domainScale` (the second ternary uses a strict `>`). -/
theorem wrap1_boundary_counterexample :
    ¬ (wrap1 scene_scale scene_scale = -scene_scale) := by
  norm_num [wrap1, scene_scale]

/-- C5 (amended): `boidGrid` computes, on each axis, the C-cast truncation
toward zero of `(pos - gridMin) * inverseCellWidth`; this agrees with the
floor exactly when the scaled offset is nonnegative, and is the ceiling on
negative values. -/
theorem boidGrid_trunc_amended (location gridMin : Vec3) (w : ℚ) :
    boidGrid location gridMin w
      = (ratTrunc ((location.1 - gridMin.1) * w),
         ratTrunc ((location.2.1 - gridMin.2.1) * w),
         ratTrunc ((location.2.2 - gridMin.2.2) * w))
    ∧ (∀ q : ℚ, 0 ≤ q → ratTrunc q = ⌊q⌋)
    ∧ (∀ q : ℚ, q < 0 → ratTrunc q = ⌈q⌉) := by
  refine ⟨rfl, ?_, ?_⟩
  · intro q hq
    unfold ratTrunc
    rw [if_pos hq]
  · intro q hq
    unfold ratTrunc
    rw [if_neg (not_le.mpr hq), Int.floor_neg, neg_neg]

/-- Witness for C5: on a nonnegative scaled offset the cast is the floor. -/
theorem boidGrid_trunc_amended_witness : ratTrunc (3 / 2 : ℚ) = ⌊(3 / 2 : ℚ)⌋ :=
  (boidGrid_trunc_amended ((0:ℚ), (0:ℚ), (0:ℚ)) ((0:ℚ), (0:ℚ), (0:ℚ)) 1).2.1 (3 / 2)
    (by norm_num)

/-- C5 counterexample: at a point half a cell below the grid minimum the
cast truncates toward zero (giving cell 0) instead of flooring (cell -1),
refuting the claim that `boidGrid` floors on negative scaled offsets. -/
theorem boidGrid_not_floor :
    (boidGrid (-(1/2), 0, 0) ((0:ℚ), (0:ℚ), (0:ℚ)) 1).1
      ≠ ⌊(((-(1/2) : ℚ)) - 0) * 1⌋ := by
  have h1 : (boidGrid (-(1/2), 0, 0) ((0:ℚ), (0:ℚ), (0:ℚ)) 1).1 = 0 := by
    show ratTrunc ((-(1/2) - 0) * 1) = 0
    rw [ratTrunc, if_neg (by norm_num)]
    norm_num
  have h2 : ⌊(((-(1/2) : ℚ)) - 0) * 1⌋ = -1 := by
    norm_num [Int.floor_eq_iff]
  rw [h1, h2]
  norm_num

/-- C8: a particle with no other particle strictly within any of the three
rule distances receives a zero velocity delta from `computeVelocityChange`. -/
theorem computeVelocityChange_isolated (N i : ℤ) (pos vel : ℤ → Vec3)
    (hi : 0 ≤ i) (hiN : i < N)
    (h : ∀ j, 0 ≤ j → j < N → j ≠ i →
      inDistB (pos j) (pos i) rule1Distance = false
      ∧ inDistB (pos j) (pos i) rule2Distance = false
      ∧ inDistB (pos j) (pos i) rule3Distance = false) :
    computeVelocityChange N i pos vel = 0 := by
  have hnil : ∀ r : ℚ, (∀ j, 0 ≤ j → j < N → j ≠ i → inDistB (pos j) (pos i) r = false) →
      (bruteNeighbors N i).filter (fun j => inDistB (pos j) (pos i) r) = [] := by
    intro r hr
    rw [List.filter_eq_nil_iff]
    intro j hj
    rw [mem_bruteNeighbors] at hj
    have hf := hr j (by omega) (by omega) (by omega)
    simp [hf]
  unfold computeVelocityChange rule1 rule2 rule3
  rw [hnil rule1Distance (fun j a b c => (h j a b c).1),
      hnil rule2Distance (fun j a b c => (h j a b c).2.1),
      hnil rule3Distance (fun j a b c => (h j a b c).2.2)]
  simp [ruleMean, ruleSep, ruleAlign]

/-- Witness for C8: the single particle of an `N = 1` population gets a zero
velocity delta. -/
theorem computeVelocityChange_isolated_witness :
    (0 : ℤ) ≤ 0 ∧ computeVelocityChange 1 0 (fun _ => ((0:ℚ), (0:ℚ), (0:ℚ)))
      (fun _ => ((0:ℚ), (0:ℚ), (0:ℚ))) = 0 :=
  ⟨le_refl 0,
   computeVelocityChange_isolated 1 0 _ _ (le_refl 0) (by norm_num)
     (fun j h1 h2 h3 => absurd (by omega : j = 0) h3)⟩

/-- C10: in all brute-force, scattered and coherent variants of the
cohesion (`rule1*`) and alignment (`rule3*`) rules, a zero neighbor count
takes the guarded branch that skips the division by `n` and the rule
returns the zero vector. -/
theorem rules_zero_neighbors_zero
    (N i s : ℤ) (startT endT arrayIdx : ℤ → ℤ) (pos vel posC velC : ℤ → Vec3)
    (cands : List ℤ)
    (h1 : ((bruteNeighbors N i).filter
      (fun j => inDistB (pos j) (pos i) rule1Distance)).length = 0)
    (h3 : ((bruteNeighbors N i).filter
      (fun j => inDistB (pos j) (pos i) rule3Distance)).length = 0)
    (h1s : ((scatterEnum startT endT arrayIdx cands).filter
      (fun j => j != i && inDistB (pos j) (pos i) rule1Distance)).length = 0)
    (h3s : ((scatterEnum startT endT arrayIdx cands).filter
      (fun j => j != i && inDistB (pos j) (pos i) rule3Distance)).length = 0)
    (h1c : ((coherentEnum startT endT cands).filter
      (fun j => j != s && inDistB (posC j) (posC s) rule1Distance)).length = 0)
    (h3c : ((coherentEnum startT endT cands).filter
      (fun j => j != s && inDistB (posC j) (posC s) rule3Distance)).length = 0) :
    rule1 N i pos rule1Scale = 0
    ∧ rule3 N i pos vel rule3Scale = 0
    ∧ rule1Scatter i startT endT arrayIdx pos cands rule1Scale = 0
    ∧ rule3Scatter i startT endT arrayIdx pos vel cands rule3Scale = 0
    ∧ rule1Coherent s startT endT posC cands rule1Scale = 0
    ∧ rule3Coherent s startT endT posC velC cands rule3Scale = 0 := by
  have hm : ∀ (nb : List ℤ) (f : ℤ → Vec3) (self : Vec3) (scale : ℚ),
      nb.length = 0 → ruleMean nb f self scale = 0 := by
    intro nb f self scale h
    simp [ruleMean, h]
  have ha : ∀ (nb : List ℤ) (f : ℤ → Vec3) (scale : ℚ),
      nb.length = 0 → ruleAlign nb f scale = 0 := by
    intro nb f scale h
    have hn : nb = [] := List.length_eq_zero.mp h
    subst hn
    simp [ruleAlign]
  exact ⟨hm _ _ _ _ h1, ha _ _ _ h3, hm _ _ _ _ h1s, ha _ _ _ h3s,
    hm _ _ _ _ h1c, ha _ _ _ h3c⟩

/-- Witness for C10: an empty candidate list and an `N = 1` population give
zero neighbors, hence zero vectors, in all six rule variants. -/
theorem rules_zero_neighbors_zero_witness :
    rule1 1 0 (fun _ => ((0:ℚ), (0:ℚ), (0:ℚ))) rule1Scale = 0
    ∧ rule3 1 0 (fun _ => ((0:ℚ), (0:ℚ), (0:ℚ))) (fun _ => ((0:ℚ), (0:ℚ), (0:ℚ)))
        rule3Scale = 0
    ∧ rule1Scatter 0 (fun _ => -1) (fun _ => -1) (fun t => t)
        (fun _ => ((0:ℚ), (0:ℚ), (0:ℚ))) [] rule1Scale = 0
    ∧ rule3Scatter 0 (fun _ => -1) (fun _ => -1) (fun t => t)
        (fun _ => ((0:ℚ), (0:ℚ), (0:ℚ))) (fun _ => ((0:ℚ), (0:ℚ), (0:ℚ))) [] rule3Scale = 0
    ∧ rule1Coherent 0 (fun _ => -1) (fun _ => -1)
        (fun _ => ((0:ℚ), (0:ℚ), (0:ℚ))) [] rule1Scale = 0
    ∧ rule3Coherent 0 (fun _ => -1) (fun _ => -1)
        (fun _ => ((0:ℚ), (0:ℚ), (0:ℚ))) (fun _ => ((0:ℚ), (0:ℚ), (0:ℚ))) [] rule3Scale = 0 :=
  rules_zero_neighbors_zero 1 0 0 (fun _ => -1) (fun _ => -1) (fun t => t)
    (fun _ => ((0:ℚ), (0:ℚ), (0:ℚ))) (fun _ => ((0:ℚ), (0:ℚ), (0:ℚ)))
    (fun _ => ((0:ℚ), (0:ℚ), (0:ℚ))) (fun _ => ((0:ℚ), (0:ℚ), (0:ℚ))) []
    rfl rfl rfl rfl rfl rfl

theorem normSq_smul (c : ℚ) (v : Vec3) : normSq (c • v) = c * c * normSq v := by
  unfold normSq
  simp only [Prod.smul_fst, Prod.smul_snd, smul_eq_mul]
  ring

/-- Core property of the shared speed clamp, for an arbitrary updated
velocity `w` and an exact square root of `normSq w`. -/
theorem clampSpeed_core (sq : ℚ → ℚ) (w : Vec3)
    (hsq : sq (normSq w) * sq (normSq w) = normSq w) (hpos : 0 ≤ sq (normSq w)) :
    (normSq w ≤ maxSpeed * maxSpeed → clampSpeed sq w = w)
    ∧ (maxSpeed * maxSpeed < normSq w →
        normSq (clampSpeed sq w) = maxSpeed * maxSpeed
        ∧ ∃ c : ℚ, 0 < c ∧ clampSpeed sq w = c • w)
    ∧ normSq (clampSpeed sq w) ≤ maxSpeed * maxSpeed := by
  unfold clampSpeed
  simp only [maxSpeed]
  generalize hLdef : sq (normSq w) = L at hsq hpos ⊢
  by_cases hlt : (1:ℚ) < L
  · rw [if_pos hlt]
    have hne : L ≠ 0 := by linarith
    have hval : normSq ((1 / L) • w) = 1 := by
      rw [normSq_smul, ← hsq]
      field_simp
    refine ⟨?_, ?_, ?_⟩
    · intro h
      exfalso
      nlinarith
    · intro _
      refine ⟨by rw [hval]; norm_num, 1 / L, ?_, rfl⟩
      have hp : (0:ℚ) < L := by linarith
      exact div_pos one_pos hp
    · rw [hval]
      norm_num
  · rw [if_neg hlt]
    refine ⟨fun _ => rfl, ?_, ?_⟩
    · intro h
      exfalso
      nlinarith
    · nlinarith

/-- C7: after any velocity update, the stored value is
`currentVelocity + delta` itself whenever its speed is at most `maxSpeed`,
and otherwise that vector rescaled (positively, so direction-preserving) to
magnitude exactly `maxSpeed`; in all cases the stored speed is at most
`maxSpeed`.  `clampSpeed` is exactly the clamp applied by
`kernUpdateVelocityBruteForce`, `kernUpdateVelNeighborSearchScattered` and
`kernUpdateVelNeighborSearchCoherent` to `vel1[boid] + velocity delta`;
`sq` is the square root used by `glm::length`, assumed exact here. -/
theorem velocityClamp_spec (sq : ℚ → ℚ) (v delta : Vec3)
    (hsq : sq (normSq (v + delta)) * sq (normSq (v + delta)) = normSq (v + delta))
    (hpos : 0 ≤ sq (normSq (v + delta))) :
    (normSq (v + delta) ≤ maxSpeed * maxSpeed → clampSpeed sq (v + delta) = v + delta)
    ∧ (maxSpeed * maxSpeed < normSq (v + delta) →
        normSq (clampSpeed sq (v + delta)) = maxSpeed * maxSpeed
        ∧ ∃ c : ℚ, 0 < c ∧ clampSpeed sq (v + delta) = c • (v + delta))
    ∧ normSq (clampSpeed sq (v + delta)) ≤ maxSpeed * maxSpeed :=
  clampSpeed_core sq (v + delta) hsq hpos

/-- Witness for C7: clamping the over-speed vector `(2,0,0)` with an exact
square root of its squared norm keeps the stored speed within `maxSpeed`. -/
theorem velocityClamp_spec_witness :
    normSq (clampSpeed (fun q => if q = (4:ℚ) then 2 else 0)
      (((0:ℚ), (0:ℚ), (0:ℚ)) + ((2:ℚ), (0:ℚ), (0:ℚ)))) ≤ maxSpeed * maxSpeed :=
  (velocityClamp_spec (fun q => if q = (4:ℚ) then 2 else 0)
    ((0:ℚ), (0:ℚ), (0:ℚ)) ((2:ℚ), (0:ℚ), (0:ℚ))
    (by norm_num [normSq, Prod.mk_add_mk])
    (by norm_num [normSq, Prod.mk_add_mk])).2.2

/-- C6: for every particle configuration, sorting the
`(gridCellId, arrayIndex)` pairs produced by `kernComputeIndices` (which
fills `indices[i] = i`) by key yields an `arrayIndex` column that is a
permutation of `[0, N)` and a non-decreasing `gridCellId` column. -/
theorem kernComputeIndices_sort_invariant (N : ℕ) (gridResolution : ℤ) (gridMin : Vec3)
    (inverseCellWidth : ℚ) (pos : ℕ → Vec3) :
    ((sort_by_key (kernComputeIndices N gridResolution gridMin inverseCellWidth pos)).map
        Prod.snd).Perm (List.range N)
    ∧ List.Pairwise (fun a b : ℤ × ℕ => a.1 ≤ b.1)
        (sort_by_key (kernComputeIndices N gridResolution gridMin inverseCellWidth pos)) := by
  constructor
  · have hm := (List.mergeSort_perm
      (kernComputeIndices N gridResolution gridMin inverseCellWidth pos)
      (fun a b => decide (a.1 ≤ b.1))).map Prod.snd
    have he : (kernComputeIndices N gridResolution gridMin inverseCellWidth pos).map
        Prod.snd = List.range N := by
      unfold kernComputeIndices
      rw [List.map_map]
      simp [Function.comp_def]
    unfold sort_by_key
    rw [he] at hm
    exact hm
  · unfold sort_by_key
    refine List.Pairwise.imp ?_ (List.sorted_mergeSort ?_ ?_
      (kernComputeIndices N gridResolution gridMin inverseCellWidth pos))
    · intro a b h
      simpa using h
    · intro a b c hab hbc
      simp only [decide_eq_true_eq] at hab hbc ⊢
      omega
    · intro a b
      simpa using le_total a.1 b.1

/-- C9: two stationary particles at `(0,0,0)` and `(1,0,0)` with
`rule2Distance = 4` and `rule2Scale = 1/10`: the separation rule pushes the
particle at the origin by `(-1/10, 0, 0)` and the other by `(1/10, 0, 0)` —
each of magnitude exactly `1/10`, directed away from the other particle. -/
theorem rule2_concrete_push :
    rule2 2 0 (fun j => if j = 1 then ((1:ℚ), (0:ℚ), (0:ℚ)) else ((0:ℚ), (0:ℚ), (0:ℚ)))
        rule2Scale = (-(1/10), 0, 0)
    ∧ rule2 2 1 (fun j => if j = 1 then ((1:ℚ), (0:ℚ), (0:ℚ)) else ((0:ℚ), (0:ℚ), (0:ℚ)))
        rule2Scale = (1/10, 0, 0)
    ∧ normSq (-(1/10), 0, 0) = (1/10) * (1/10)
    ∧ normSq ((1/10 : ℚ), (0:ℚ), (0:ℚ)) = (1/10) * (1/10) := by
  have hB0 : bruteNeighbors 2 0 = [1] := by decide
  have hB1 : bruteNeighbors 2 1 = [0] := by decide
  refine ⟨?_, ?_, ?_, ?_⟩
  · rw [rule2, hB0]
    norm_num [inDistB, normSq, rule2Distance, rule2Scale, ruleSep, List.filter,
      Prod.mk_sub_mk, Prod.smul_mk, Prod.mk_add_mk]
  · rw [rule2, hB1]
    norm_num [inDistB, normSq, rule2Distance, rule2Scale, ruleSep, List.filter,
      Prod.mk_sub_mk, Prod.smul_mk, Prod.mk_add_mk]
  · norm_num [normSq]
  · norm_num [normSq]

/-- C3 (code bug evaluation): with `gridResolution = 1` (only the coordinate
`(0,0,0)`, linearized to cell id 0, is in bounds) a particle at
`(1/2, 1/2, 1/2)` makes `findGridCells` emit cell id 1 three times — from
probe coordinates such as `(1,0,0)` and `(0,0,1)` whose components equal the
resolution, accepted because `gridInRange` tests `<= gridResolution` rather
than `<`; the only in-bounds coordinate linearizes to 0, so an emitted id 1
is the linearization of no in-bounds coordinate. -/
theorem findGridCells_out_of_bounds_cell :
    findGridCells 0 1 ((0:ℚ), (0:ℚ), (0:ℚ)) 1 1 (fun c => if c = 1 then 0 else -1)
        (fun _ => ((1/2 : ℚ), (1/2 : ℚ), (1/2 : ℚ))) = [1, 1, 1]
    ∧ gridIndex3Dto1D 0 0 0 1 = 0
    ∧ gridInRange (1, 0, 0) 1 := by
  refine ⟨?_, by decide, by decide⟩
  have hg1 : boidGrid (((1/2 : ℚ), (1/2 : ℚ), (1/2 : ℚ))
      + ((1 : ℚ) * (1/2), (1 : ℚ) * (1/2), (1 : ℚ) * (1/2)))
      ((0:ℚ), (0:ℚ), (0:ℚ)) 1 = (1, 1, 1) := by
    norm_num [boidGrid, ratTrunc, Prod.mk_add_mk]
  have hg2 : boidGrid (((1/2 : ℚ), (1/2 : ℚ), (1/2 : ℚ))
      - ((1 : ℚ) * (1/2), (1 : ℚ) * (1/2), (1 : ℚ) * (1/2)))
      ((0:ℚ), (0:ℚ), (0:ℚ)) 1 = (0, 0, 0) := by
    norm_num [boidGrid, ratTrunc, Prod.mk_sub_mk]
  simp only [findGridCells, hg1, hg2]
  decide

/-- Witness for C2: a two-particle configuration sharing one occupied cell,
with identity `arrayIndex` table; the scattered and coherent deltas both
equal the brute-force delta. -/
theorem computeVelocityChange_equiv_witness :
    ([(0:ℤ)].Nodup)
    ∧ (computeVelocityChangeScattered 0 (fun c => if c = 0 then 0 else -1)
        (fun c => if c = 0 then 2 else -1) (fun t => t)
        (fun j => if j = 1 then ((1:ℚ), (0:ℚ), (0:ℚ)) else ((0:ℚ), (0:ℚ), (0:ℚ)))
        (fun _ => ((0:ℚ), (0:ℚ), (0:ℚ))) [0]
        = computeVelocityChange 2 0
          (fun j => if j = 1 then ((1:ℚ), (0:ℚ), (0:ℚ)) else ((0:ℚ), (0:ℚ), (0:ℚ)))
          (fun _ => ((0:ℚ), (0:ℚ), (0:ℚ)))
      ∧ computeVelocityChangeCoherent 0 (fun c => if c = 0 then 0 else -1)
        (fun c => if c = 0 then 2 else -1)
        (kernMakeCoherent (fun t => t)
          (fun j => if j = 1 then ((1:ℚ), (0:ℚ), (0:ℚ)) else ((0:ℚ), (0:ℚ), (0:ℚ))))
        (kernMakeCoherent (fun t => t) (fun _ => ((0:ℚ), (0:ℚ), (0:ℚ)))) [0]
        = computeVelocityChange 2 0
          (fun j => if j = 1 then ((1:ℚ), (0:ℚ), (0:ℚ)) else ((0:ℚ), (0:ℚ), (0:ℚ)))
          (fun _ => ((0:ℚ), (0:ℚ), (0:ℚ)))) := by
  refine ⟨by decide, ?_⟩
  have hG : GridInvariants 2 0
      (fun j => if j = 1 then ((1:ℚ), (0:ℚ), (0:ℚ)) else ((0:ℚ), (0:ℚ), (0:ℚ)))
      (fun _ => (0:ℤ))
      (fun c => if c = 0 then 0 else -1)
      (fun c => if c = 0 then 2 else -1)
      (fun t => t) [0] := by
    refine ⟨by norm_num, fun t h1 h2 => ⟨h1, h2⟩, fun t₁ t₂ _ _ _ _ h => h,
      fun j h1 h2 => ⟨j, h1, h2, rfl⟩, ?_, ?_, by decide, ?_⟩
    · intro t h1 h2 c
      by_cases hc : c = 0
      · subst hc
        norm_num
        omega
      · rw [if_neg hc, if_neg hc]
        constructor
        · intro h
          omega
        · intro h
          exact absurd h.symm hc
    · intro c hc
      simp only [List.mem_singleton] at hc
      subst hc
      norm_num
    · intro j h1 h2 _
      simp
  exact computeVelocityChange_equiv hG (by norm_num) rfl
